import Mathlib

/-!
Verification of the chickenpy interpreter (compiler + stack virtual machine).

The development shallowly embeds the two source files:
  * compiler.py : line-oriented tokenizer producing opcodes / literal tokens
  * vm.py       : the Machine with its combined stack and dispatch loop

Python runtime values that can live on the machine stack are modelled by
the inductive type Value.  Python exceptions are modelled by VMErr and
explicit error results; machine integers are unbounded in Python, hence Int.
-/

/-- The ten fixed opcodes of vm.py (enum OPCODE, an IntEnum). -/
inductive OPCODE where
  | EXIT
  | CHICKEN
  | ADD
  | SUB
  | MUL
  | CMP
  | LOAD
  | STORE
  | JMP
  | CHAR

/-- Integer value of each enum member, as assigned in vm.py. -/
def OPCODE.val : OPCODE → Int
  | .EXIT => 0
  | .CHICKEN => 1
  | .ADD => 2
  | .SUB => 3
  | .MUL => 4
  | .CMP => 5
  | .LOAD => 6
  | .STORE => 7
  | .JMP => 8
  | .CHAR => 9

/-- Enum member name, used by the overridden str form OP.NAME (value). -/
def OPCODE.name : OPCODE → String
  | .EXIT => "EXIT"
  | .CHICKEN => "CHICKEN"
  | .ADD => "ADD"
  | .SUB => "SUB"
  | .MUL => "MUL"
  | .CMP => "CMP"
  | .LOAD => "LOAD"
  | .STORE => "STORE"
  | .JMP => "JMP"
  | .CHAR => "CHAR"

/-- OPCODE(num) for num in 0..9, the conversion used by compile.
compile only applies it under the guard num_chickens <= 9, so the final
catch-all (Python would raise ValueError above 9) is unreachable there. -/
def OPCODE.ofNat : Nat → OPCODE
  | 0 => .EXIT
  | 1 => .CHICKEN
  | 2 => .ADD
  | 3 => .SUB
  | 4 => .MUL
  | 5 => .CMP
  | 6 => .LOAD
  | 7 => .STORE
  | 8 => .JMP
  | 9 => .CHAR
  | _ => .EXIT

/-- Python runtime values reachable on the machine stack:
the self-reference stored at slot 0, integers, booleans, strings,
opcode enum members, and plain lists (results of list concatenation). -/
inductive Value where
  | selfRef
  | vint (n : Int)
  | vbool (b : Bool)
  | vstr (s : String)
  | vop (c : OPCODE)
  | vlist (l : List Value)

/-- Python bool as the integer it is a subclass of: True is 1, False is 0. -/
def boolToInt (b : Bool) : Int := if b then 1 else 0

/-- Numeric view of a value for Python integer arithmetic and indexing:
ints, bools and IntEnum members all act as integers; everything else
is not a number. -/
def toNum : Value → Option Int
  | .vint n => some n
  | .vbool b => some (boolToInt b)
  | .vop c => some (OPCODE.val c)
  | _ => none

/-- View a value as a Python list.  The self-reference denotes the live
stack, so the current stack is supplied by the caller. -/
def asPyList (stack : List Value) : Value → Option (List Value)
  | .selfRef => some stack
  | .vlist l => some l
  | _ => none

/-- Python sequence indexing seq[i]: negative indices count from the end,
anything outside [-len, len) raises IndexError (here: none). -/
def pyIdx {α : Type} (l : List α) (i : Int) : Option α :=
  let n : Int := l.length
  let j : Int := if i < 0 then i + n else i
  if 0 ≤ j ∧ j < n then l.get? j.toNat else none

/-- Python list item assignment lst[i] = v with the same index rule as
pyIdx; out of range raises IndexError (none). -/
def pySet (l : List Value) (i : Int) (v : Value) : Option (List Value) :=
  let n : Int := l.length
  let j : Int := if i < 0 then i + n else i
  if 0 ≤ j ∧ j < n then some (l.set j.toNat v) else none

/-- Whitespace for str.split(); the ASCII and Latin-1 whitespace characters
Python treats as separators (further Unicode space characters exist but are
irrelevant to chicken programs). -/
def isPySpace (c : Char) : Bool :=
  c == Char.ofNat 32 || c == Char.ofNat 9 || c == Char.ofNat 10 ||
  c == Char.ofNat 13 || c == Char.ofNat 11 || c == Char.ofNat 12 ||
  c == Char.ofNat 28 || c == Char.ofNat 29 || c == Char.ofNat 30 ||
  c == Char.ofNat 133 || c == Char.ofNat 160 ||
  c == Char.ofNat 0x2028 || c == Char.ofNat 0x2029

/-- Line boundaries for str.splitlines (CR LF handled as one break). -/
def isLineBreak (c : Char) : Bool :=
  c == Char.ofNat 10 || c == Char.ofNat 13 || c == Char.ofNat 11 ||
  c == Char.ofNat 12 || c == Char.ofNat 28 || c == Char.ofNat 29 ||
  c == Char.ofNat 30 || c == Char.ofNat 133 ||
  c == Char.ofNat 0x2028 || c == Char.ofNat 0x2029

/-- Worker for str.splitlines: acc holds the current line reversed. -/
def splitlinesAux : List Char → List Char → List String
  | [], acc => if acc.isEmpty then [] else [String.mk acc.reverse]
  | c :: rest, acc =>
    if c = Char.ofNat 13 then
      match rest with
      | d :: rest2 =>
        if d = Char.ofNat 10 then String.mk acc.reverse :: splitlinesAux rest2 []
        else String.mk acc.reverse :: splitlinesAux (d :: rest2) []
      | [] => String.mk acc.reverse :: splitlinesAux [] []
    else if isLineBreak c then String.mk acc.reverse :: splitlinesAux rest []
    else splitlinesAux rest (c :: acc)

/-- Python str.splitlines(): no trailing empty line for a final newline. -/
def pySplitlines (s : String) : List String := splitlinesAux s.data []

/-- Worker for str.split(): runs of whitespace separate words. -/
def splitAux : List Char → List Char → List String
  | [], acc => if acc.isEmpty then [] else [String.mk acc.reverse]
  | c :: rest, acc =>
    if isPySpace c then
      if acc.isEmpty then splitAux rest []
      else String.mk acc.reverse :: splitAux rest []
    else splitAux rest (c :: acc)

/-- Python str.split() with no arguments. -/
def pySplit (s : String) : List String := splitAux s.data []

/-- compiler.py ParseError, carrying the data interpolated into its message:
the 1-based line number and the distinct invalid words of that line
(Python renders them from a set, whose iteration order is unspecified;
the model keeps first-occurrence order). -/
structure ParseError where
  lineNo : Nat
  badWords : List String

/-- set(words) - chicken-or-space, the validation in compile
(str.split never emits a lone space, the subtraction keeps source form). -/
def invalidWords (words : List String) : List String :=
  (words.filter (fun w => !(w == "chicken" || w == " "))).eraseDups

/-- The token compile emits for one line: word counts above 9 are kept
as raw integer literals, otherwise the count names an opcode. -/
def lineToken (line : String) : Value :=
  let num_chickens := (pySplit line).length
  if num_chickens > 9 then Value.vint num_chickens
  else Value.vop (OPCODE.ofNat num_chickens)

/-- The compile loop over enumerate(lines, start=line_no); the raise on the
first offending line aborts the whole compilation (the dead return False
after the raise in the source is unreachable and not modelled). -/
def compileLines : Nat → List String → Except ParseError (List Value)
  | _, [] => .ok []
  | line_no, line :: rest =>
    let word_set := invalidWords (pySplit line)
    if word_set.isEmpty then
      match compileLines (line_no + 1) rest with
      | .error e => .error e
      | .ok toks => .ok (lineToken line :: toks)
    else .error ⟨line_no, word_set⟩

/-- compiler.py compile: source text to token list, or ParseError. -/
def compile (code : String) : Except ParseError (List Value) :=
  compileLines 1 (pySplitlines code)

/-- Errors a machine operation can raise (Python exception classes that
escape dispatch: IndexError, TypeError, ValueError, and RecursionError
for cyclic list comparisons). -/
inductive VMErr where
  | indexError
  | typeError
  | valueError
  | recursionError

/-- Python repr of a scalar; for a list met while the live stack is already
being rendered, the cyclic-reference marker.  String rendering keeps the
single-quoted form with the usual escapes (CPython additionally switches
quote style for strings containing a single quote and hex-escapes other
control characters; no chicken program observes those corners). -/
def escQuoteChar (c : Char) : String :=
  if c = Char.ofNat 92 then "\\\\"
  else if c = Char.ofNat 39 then "\\" ++ String.singleton (Char.ofNat 39)
  else if c = Char.ofNat 10 then "\\n"
  else if c = Char.ofNat 13 then "\\r"
  else if c = Char.ofNat 9 then "\\t"
  else String.singleton c

/-- Python repr of a str, simplified as described at escQuoteChar. -/
def pyQuoteStr (s : String) : String :=
  String.singleton (Char.ofNat 39) ++ String.join (s.data.map escQuoteChar)
    ++ String.singleton (Char.ofNat 39)

/-- repr of a value while the live stack is already under rendering:
the self-reference prints as the recursion marker. -/
def reprSeen : Value → String
  | .selfRef => "[...]"
  | .vint n => toString n
  | .vbool b => if b then "True" else "False"
  | .vstr s => pyQuoteStr s
  | .vop c => "<OPCODE." ++ OPCODE.name c ++ ": " ++ toString (OPCODE.val c) ++ ">"
  | .vlist l => "[" ++ String.intercalate ", " (l.attach.map (fun x => reprSeen x.1)) ++ "]"
decreasing_by
  simp_wf
  have := List.sizeOf_lt_of_mem x.2
  omega

/-- repr of a value outside any rendering of the live stack: the
self-reference expands once, after which nested occurrences print
as the recursion marker (CPython tracks the objects currently being
rendered; only the stack self-reference can actually recur here). -/
def pyRepr (stack : List Value) : Value → String
  | .selfRef => "[" ++ String.intercalate ", " (stack.map reprSeen) ++ "]"
  | .vlist l => "[" ++ String.intercalate ", " (l.attach.map (fun x => pyRepr stack x.1)) ++ "]"
  | v => reprSeen v
decreasing_by
  simp_wf
  have := List.sizeOf_lt_of_mem x.2
  omega

/-- Python str() of a value, as interpolated by an f-string: strings are
kept as-is, bools print True/False, OPCODE uses its overridden form
OP.NAME (value), and lists fall back to repr. -/
def pyStr (stack : List Value) : Value → String
  | .vstr s => s
  | .vint n => toString n
  | .vbool b => if b then "True" else "False"
  | .vop c => "OP." ++ OPCODE.name c ++ " (" ++ toString (OPCODE.val c) ++ ")"
  | v => pyRepr stack v

/-- Python operand_1 + operand_2: integer kinds add numerically, two strings
concatenate, two lists concatenate; any other pairing raises TypeError
(none).  The strings-first branch mirrors that str.__add__ never mixes
with the numeric kinds. -/
def pyAdd (stack : List Value) (a b : Value) : Option Value :=
  match a, b with
  | .vstr s, .vstr t => some (.vstr (s ++ t))
  | _, _ =>
    match toNum a, toNum b with
    | some x, some y => some (.vint (x + y))
    | _, _ =>
      match asPyList stack a, asPyList stack b with
      | some la, some lb => some (.vlist (la ++ lb))
      | _, _ => none

/-- The value the ADD opcode pushes: direct addition when Python + accepts
the operands, else the f-string concatenation of their textual forms. -/
def addValue (stack : List Value) (operand_1 operand_2 : Value) : Value :=
  match pyAdd stack operand_1 operand_2 with
  | some v => v
  | none => .vstr (pyStr stack operand_1 ++ pyStr stack operand_2)

/-- Elementwise list comparison parameterized by the element test, with
Python short-circuiting on the first inequality and length mismatch. -/
def eqListWith (f : Value → Value → Option Bool) :
    List Value → List Value → Option Bool
  | [], [] => some true
  | [], _ :: _ => some false
  | _ :: _, [] => some false
  | x :: xs, y :: ys =>
    match f x y with
    | none => none
    | some false => some false
    | some true => eqListWith f xs ys

/-- Python == on machine values.  The numeric kinds (int, bool, OPCODE)
compare by integer value since bool and IntEnum are int subclasses;
strings compare as strings; the identical self-reference compares equal
by object identity; lists compare elementwise.  Mixed kinds otherwise
compare unequal.  fuel bounds the list recursion: exhaustion (none)
models the RecursionError CPython raises on a cyclic comparison. -/
def eqV (stack : List Value) : Nat → Value → Value → Option Bool
  | fuel, a, b =>
    match a, b with
    | .selfRef, .selfRef => some true
    | .selfRef, .vlist lb =>
      (match fuel with
       | 0 => none
       | fuel2 + 1 => eqListWith (fun x y => eqV stack fuel2 x y) stack lb)
    | .vlist la, .selfRef =>
      (match fuel with
       | 0 => none
       | fuel2 + 1 => eqListWith (fun x y => eqV stack fuel2 x y) la stack)
    | .vlist la, .vlist lb =>
      (match fuel with
       | 0 => none
       | fuel2 + 1 => eqListWith (fun x y => eqV stack fuel2 x y) la lb)
    | .vstr s, .vstr t => some (s == t)
    | .vint x, .vint y => some (x == y)
    | .vint x, .vbool y => some (x == boolToInt y)
    | .vint x, .vop c => some (x == OPCODE.val c)
    | .vbool x, .vint y => some (boolToInt x == y)
    | .vbool x, .vbool y => some (x == y)
    | .vbool x, .vop c => some (boolToInt x == OPCODE.val c)
    | .vop c, .vint y => some (OPCODE.val c == y)
    | .vop c, .vbool y => some (OPCODE.val c == boolToInt y)
    | .vop c, .vop d => some (OPCODE.val c == OPCODE.val d)
    | _, _ => some false

/-- CPython default recursion limit, the bound behind eqV fuel. -/
def pyRecursionLimit : Nat := 1000

/-- Python truthiness: zero numbers, empty strings and empty lists are
falsy; the self-reference is the live stack, truthy when non-empty. -/
def pyTruthy (stack : List Value) : Value → Bool
  | .vint n => n != 0
  | .vbool b => b
  | .vstr s => !s.isEmpty
  | .vop c => OPCODE.val c != 0
  | .selfRef => !stack.isEmpty
  | .vlist l => !l.isEmpty

/-- Digit run for int(str): underscores allowed only singly and between
digits, so splitting on them must leave non-empty all-digit chunks. -/
def pyDigitsVal (cs : List Char) : Option Nat :=
  let parts := cs.splitOn (Char.ofNat 95)
  if parts.any (fun p => p.isEmpty) then none
  else
    let ds := parts.flatten
    if ds.all (fun c => c.isDigit) then
      some (ds.foldl (fun acc c => acc * 10 + (c.toNat - 48)) 0)
    else none

/-- Python int(s) for a str: strip whitespace, optional sign, base-10
digits; anything else raises ValueError (none).  Non-ASCII decimal
digits also parse in CPython but never occur in chicken programs. -/
def pyStrToInt (s : String) : Option Int :=
  let cs := ((s.data.dropWhile isPySpace).reverse.dropWhile isPySpace).reverse
  match cs with
  | [] => none
  | c :: rest =>
    if c = Char.ofNat 43 then (pyDigitsVal rest).map (fun n => (n : Int))
    else if c = Char.ofNat 45 then (pyDigitsVal rest).map (fun n => -(n : Int))
    else (pyDigitsVal cs).map (fun n => (n : Int))

/-- Python int(x) as used by SUB and MUL: ints, bools and opcodes are
already integers; strings parse or raise ValueError; lists raise
TypeError. -/
def pyIntCoerce : Value → Except VMErr Int
  | .vint n => .ok n
  | .vbool b => .ok (boolToInt b)
  | .vop c => .ok (OPCODE.val c)
  | .vstr s =>
    match pyStrToInt s with
    | some n => .ok n
    | none => .error .valueError
  | .selfRef => .error .typeError
  | .vlist _ => .error .typeError

/-- source[load_index] inside LOAD: the try block catches IndexError only,
substituting the empty string; a non-integer index or a non-subscriptable
source raises TypeError through the except clause.  The self-reference
indexes the live (post-pop) stack supplied as stack. -/
def pySubscript (stack : List Value) (source idx : Value) : Except VMErr Value :=
  match toNum idx with
  | none => .error .typeError
  | some i =>
    match source with
    | .selfRef =>
      match pyIdx stack i with
      | some v => .ok v
      | none => .ok (.vstr "")
    | .vlist l =>
      match pyIdx l i with
      | some v => .ok v
      | none => .ok (.vstr "")
    | .vstr s =>
      match pyIdx s.data i with
      | some c => .ok (.vstr (String.singleton c))
      | none => .ok (.vstr "")
    | _ => .error .typeError

/-- The machine state: the single combined stack (index 0 the
self-reference, index 1 the input, then code, EXIT sentinel, data)
and the instruction pointer. -/
structure Machine where
  stack : List Value
  instruction_pointer : Int

/-- Machine construction from compiled code and the stdin string. -/
def Machine.init (code : List Value) (stdin : String) : Machine :=
  ⟨Value.selfRef :: Value.vstr stdin :: (code ++ [Value.vop .EXIT]), 2⟩

/-- self.stack.pop(): removes and returns the token at the top of the
stack; IndexError (none) when empty. -/
def Machine.pop? (m : Machine) : Option (Value × Machine) :=
  match m.stack.getLast? with
  | some v => some (v, ⟨m.stack.dropLast, m.instruction_pointer⟩)
  | none => none

/-- self.push(value): appends to the top of the stack. -/
def Machine.push (m : Machine) (v : Value) : Machine :=
  ⟨m.stack ++ [v], m.instruction_pointer⟩

/-- Result of one dispatch: the new machine, or the Python exception and
the machine state at the moment it was raised. -/
inductive StepResult where
  | ok (m : Machine)
  | err (e : VMErr) (m : Machine)

def StepResult.isErr : StepResult → Bool
  | .err _ _ => true
  | .ok _ => false

/-- Machine.dispatch(op): executes one opcode.  The machine passed in has
the instruction pointer already advanced past op (next_token ran in the
run loop).  Tokens that are no opcode member fall to the literal-push
else branch op - 10. -/
def Machine.dispatch (m : Machine) (op : Value) : StepResult :=
  match op with
  | .vop .CHICKEN => .ok (m.push (.vstr "chicken"))
  | .vop .ADD =>
    match m.pop? with
    | none => .err .indexError m
    | some (operand_2, m1) =>
      match m1.pop? with
      | none => .err .indexError m1
      | some (operand_1, m2) =>
        .ok (m2.push (addValue m2.stack operand_1 operand_2))
  | .vop .SUB =>
    match m.pop? with
    | none => .err .indexError m
    | some (operand_2, m1) =>
      match m1.pop? with
      | none => .err .indexError m1
      | some (operand_1, m2) =>
        match pyIntCoerce operand_1 with
        | .error e => .err e m2
        | .ok x =>
          match pyIntCoerce operand_2 with
          | .error e => .err e m2
          | .ok y => .ok (m2.push (.vint (x - y)))
  | .vop .MUL =>
    match m.pop? with
    | none => .err .indexError m
    | some (operand_2, m1) =>
      match m1.pop? with
      | none => .err .indexError m1
      | some (operand_1, m2) =>
        match pyIntCoerce operand_2 with
        | .error e => .err e m2
        | .ok y =>
          match pyIntCoerce operand_1 with
          | .error e => .err e m2
          | .ok x => .ok (m2.push (.vint (y * x)))
  | .vop .CMP =>
    match m.pop? with
    | none => .err .indexError m
    | some (operand_2, m1) =>
      match m1.pop? with
      | none => .err .indexError m1
      | some (operand_1, m2) =>
        match eqV m2.stack pyRecursionLimit operand_2 operand_1 with
        | none => .err .recursionError m2
        | some r => .ok (m2.push (.vbool r))
  | .vop .LOAD =>
    match pyIdx m.stack m.instruction_pointer with
    | none => .err .indexError m
    | some load_from =>
      let m1 : Machine := ⟨m.stack, m.instruction_pointer + 1⟩
      match toNum load_from with
      | none => .err .typeError m1
      | some i =>
        match pyIdx m1.stack i with
        | none => .err .indexError m1
        | some source =>
          match m1.pop? with
          | none => .err .indexError m1
          | some (load_index, m2) =>
            match pySubscript m2.stack source load_index with
            | .error e => .err e m2
            | .ok load => .ok (m2.push load)
  | .vop .STORE =>
    match m.pop? with
    | none => .err .indexError m
    | some (address, m1) =>
      match m1.pop? with
      | none => .err .indexError m1
      | some (load, m2) =>
        match toNum address with
        | none => .err .typeError m2
        | some i =>
          match pySet m2.stack i load with
          | none => .err .indexError m2
          | some stack2 => .ok ⟨stack2, m2.instruction_pointer⟩
  | .vop .JMP =>
    match m.pop? with
    | none => .err .indexError m
    | some (rel_offset, m1) =>
      match m1.pop? with
      | none => .err .indexError m1
      | some (cond, m2) =>
        if pyTruthy m2.stack cond then
          match toNum rel_offset with
          | none => .err .typeError m2
          | some k => .ok ⟨m2.stack, m2.instruction_pointer + k⟩
        else .ok m2
  | .vop .CHAR =>
    match m.pop? with
    | none => .err .indexError m
    | some (token, m1) =>
      match toNum token with
      | none => .err .typeError m1
      | some n =>
        if 0 ≤ n ∧ n < 1114112 then
          .ok (m1.push (.vstr (String.singleton (Char.ofNat n.toNat))))
        else .err .valueError m1
  | _ =>
    match toNum op with
    | none => .err .typeError m
    | some n => .ok (m.push (.vint (n - 10)))

/-- Result of Machine.run: the peeked value at loop exit, a Python
exception with the state at the raise, or exhausted fuel for a program
still running (Python has no step limit; a chicken program may loop). -/
inductive RunResult where
  | done (v : Value)
  | err (e : VMErr) (m : Machine)
  | fuelOut (m : Machine)

def RunResult.isErr : RunResult → Bool
  | .err _ _ => true
  | _ => false

/-- Machine.run: while instruction_pointer <= len(stack) (note: at
equality the subsequent stack read raises IndexError); break without
consuming when the token at the pointer is the EXIT member; otherwise
fetch-advance and dispatch; at loop exit return self.peek(). -/
def Machine.run : Nat → Machine → RunResult
  | 0, m => .fuelOut m
  | fuel + 1, m =>
    if m.instruction_pointer ≤ (m.stack.length : Int) then
      match pyIdx m.stack m.instruction_pointer with
      | none => .err .indexError m
      | some tok =>
        match tok with
        | .vop .EXIT =>
          match m.stack.getLast? with
          | none => .err .indexError m
          | some top => .done top
        | _ =>
          match Machine.dispatch ⟨m.stack, m.instruction_pointer + 1⟩ tok with
          | .ok m2 => Machine.run fuel m2
          | .err e m2 => .err e m2
    else
      match m.stack.getLast? with
      | none => .err .indexError m
      | some top => .done top

/-- Length of a value viewed as a Python sequence (len(source)); the
self-reference is the live stack whose current contents are supplied. -/
def pySeqLen (stack : List Value) : Value → Option Nat
  | .selfRef => some stack.length
  | .vstr s => some s.length
  | .vlist l => some l.length
  | _ => none

/-! ## Helper lemmas -/

theorem pop_concat (l : List Value) (v : Value) (ip : Int) :
    Machine.pop? ⟨l ++ [v], ip⟩ = some (v, ⟨l, ip⟩) := by
  simp [Machine.pop?]

theorem pop_concat2 (l : List Value) (a b : Value) (ip : Int) :
    Machine.pop? ⟨l ++ [a, b], ip⟩ = some (b, ⟨l ++ [a], ip⟩) := by
  have h : l ++ [a, b] = (l ++ [a]) ++ [b] := by simp
  rw [h, pop_concat]

theorem pyIdx_none_of_out {α : Type} (l : List α) (i : Int)
    (h : (l.length : Int) ≤ i ∨ i < -(l.length : Int)) : pyIdx l i = none := by
  simp only [pyIdx]
  split_ifs with h1 h2 <;> first | rfl | omega

theorem pyIdx_le {α : Type} (l : List α) (i : Int) (v : α)
    (h : pyIdx l i = some v) : i ≤ (l.length : Int) := by
  by_contra hc
  rw [pyIdx_none_of_out l i (Or.inl (by omega))] at h
  exact Option.noConfusion h

theorem pyIdx_ne_nil {α : Type} (l : List α) (i : Int) (v : α)
    (h : pyIdx l i = some v) : l ≠ [] := by
  intro he
  subst he
  simp only [pyIdx, List.length_nil] at h
  split_ifs at h with h1 <;> simp_all

theorem pySet_none_of_out (l : List Value) (i : Int) (v : Value)
    (h : (l.length : Int) ≤ i ∨ i < -(l.length : Int)) : pySet l i v = none := by
  simp only [pySet]
  split_ifs with h1 h2 <;> first | rfl | omega

theorem getLast_of_ne_nil {α : Type} (l : List α) (h : l ≠ []) :
    ∃ top, l.getLast? = some top := by
  cases hl : l.getLast? with
  | none => exact absurd (List.getLast?_eq_none_iff.mp hl) h
  | some v => exact ⟨v, rfl⟩

/-! ## Claim C1 -/

/-- Claim C1 (amended): run() terminates normally, returning the top of
the stack non-destructively, whenever an EXIT token is at the instruction
pointer or the pointer is strictly greater than the stack length.  (At a
pointer exactly equal to the stack length the claim fails: the loop guard
instruction_pointer <= len(stack) still holds and the read
stack[instruction_pointer] raises an uncaught IndexError; see the
counterexample.) -/
theorem run_exit_or_strictly_past_end (m : Machine) (fuel : Nat) (top : Value)
    (htop : m.stack.getLast? = some top)
    (hcond : pyIdx m.stack m.instruction_pointer = some (Value.vop .EXIT) ∨
             (m.stack.length : Int) < m.instruction_pointer) :
    Machine.run (fuel + 1) m = .done top := by
  rcases hcond with h | h
  · have hle := pyIdx_le _ _ _ h
    simp only [Machine.run, if_pos hle, h, htop]
  · have hnle : ¬ m.instruction_pointer ≤ (m.stack.length : Int) := by omega
    simp only [Machine.run, if_neg hnle, htop]

theorem run_exit_or_strictly_past_end_witness :
    Machine.run 1 (Machine.init [] "") = .done (Value.vop .EXIT) :=
  run_exit_or_strictly_past_end (Machine.init [] "") 0 (Value.vop .EXIT) rfl
    (Or.inl rfl)

/-- Claim C1 counterexample: a program whose JMP moves the instruction
pointer to exactly the stack length (an index at-or-beyond the length,
which the claim says terminates normally); run instead raises IndexError
there, because the loop guard uses <= len(stack). -/
theorem run_at_exact_length_raises :
    Machine.run 5 (Machine.init
        [Value.vop .CHICKEN, Value.vint 11, Value.vop .JMP] "") =
      .err .indexError
        ⟨[Value.selfRef, Value.vstr "", Value.vop .CHICKEN, Value.vint 11,
          Value.vop .JMP, Value.vop .EXIT], 6⟩ ∧
    ([Value.selfRef, Value.vstr "", Value.vop .CHICKEN, Value.vint 11,
      Value.vop .JMP, Value.vop .EXIT].length : Int) = 6 :=
  ⟨rfl, rfl⟩

/-! ## Claim C2 -/

/-- Claim C2 counterexample: CMP on popped operands of different runtime
types boolean true and integer 1 pushes true, not false — Python bool is
an int subclass and == compares their numeric values. -/
theorem cmp_true_vs_one_pushes_true :
    Machine.dispatch ⟨[Value.vint 1, Value.vbool true], 7⟩ (Value.vop .CMP) =
      .ok ⟨[Value.vbool true], 7⟩ ∧
    Value.vbool true ≠ Value.vbool false := by
  exact ⟨rfl, by simp⟩

/-- Claim C2 (amended): CMP pushes each type's natural value-equality and
mismatched types are unequal, except across the integer kinds: booleans
(and opcode members) compare by their integer values, so true equals 1.
String vs integer is false either way round; equal strings and equal
integers compare true. -/
theorem cmp_mismatch_amended (pre : List Value) (ip n : Int) (s : String)
    (b : Bool) :
    Machine.dispatch ⟨pre ++ [Value.vint n, Value.vstr s], ip⟩
        (Value.vop .CMP) = .ok ⟨pre ++ [Value.vbool false], ip⟩ ∧
    Machine.dispatch ⟨pre ++ [Value.vstr s, Value.vint n], ip⟩
        (Value.vop .CMP) = .ok ⟨pre ++ [Value.vbool false], ip⟩ ∧
    Machine.dispatch ⟨pre ++ [Value.vint n, Value.vbool b], ip⟩
        (Value.vop .CMP) = .ok ⟨pre ++ [Value.vbool (boolToInt b == n)], ip⟩ ∧
    Machine.dispatch ⟨pre ++ [Value.vstr s, Value.vstr s], ip⟩
        (Value.vop .CMP) = .ok ⟨pre ++ [Value.vbool true], ip⟩ ∧
    Machine.dispatch ⟨pre ++ [Value.vint n, Value.vint n], ip⟩
        (Value.vop .CMP) = .ok ⟨pre ++ [Value.vbool true], ip⟩ := by
  refine ⟨?_, ?_, ?_, ?_, ?_⟩ <;>
    simp [Machine.dispatch, pop_concat2, pop_concat, eqV, Machine.push]

/-! ## Claim C3 -/

/-- Claim C3: for every LOAD whose load_from operand selects the stack
(slot 0, holding the self-reference) or the input string (slot 1), a
popped integer index out of range of the selected source never raises:
the except IndexError branch substitutes the empty string, which is
pushed. -/
theorem load_out_of_range_pushes_empty
    (pre : List Value) (j lf : Int) (m : Machine) (source : Value) (L : Nat)
    (hm : m.stack = pre ++ [Value.vint j])
    (hfetch : pyIdx m.stack m.instruction_pointer = some (Value.vint lf))
    (_hlf : lf = 0 ∨ lf = 1)
    (hsrc : pyIdx m.stack lf = some source)
    (hkind : source = Value.selfRef ∨ ∃ s, source = Value.vstr s)
    (hlen : pySeqLen pre source = some L)
    (hrange : (L : Int) ≤ j ∨ j < -(L : Int)) :
    Machine.dispatch m (Value.vop .LOAD) =
      .ok ⟨pre ++ [Value.vstr ""], m.instruction_pointer + 1⟩ := by
  obtain ⟨stack, ip⟩ := m
  simp only at hm hfetch hsrc
  subst hm
  have hpop : Machine.pop? ⟨pre ++ [Value.vint j], ip + 1⟩ =
      some (Value.vint j, ⟨pre, ip + 1⟩) := pop_concat pre (Value.vint j) (ip + 1)
  rcases hkind with hsel | ⟨s, hsel⟩ <;> subst hsel
  · simp only [pySeqLen, Option.some.injEq] at hlen
    have hnone : pyIdx pre j = none :=
      pyIdx_none_of_out pre j (by omega)
    simp only [Machine.dispatch, hfetch, toNum, hsrc, hpop, pySubscript, hnone,
      Machine.push]
  · simp only [pySeqLen, Option.some.injEq] at hlen
    have hnone : pyIdx s.data j = none := by
      apply pyIdx_none_of_out
      have : s.data.length = L := by rw [← hlen]; rfl
      omega
    simp only [Machine.dispatch, hfetch, toNum, hsrc, hpop, pySubscript, hnone,
      Machine.push]

theorem load_out_of_range_pushes_empty_witness :
    Machine.dispatch ⟨[Value.selfRef, Value.vstr "hi", Value.vint 1,
        Value.vint 99], 2⟩ (Value.vop .LOAD) =
      .ok ⟨[Value.selfRef, Value.vstr "hi", Value.vint 1, Value.vstr ""], 3⟩ :=
  load_out_of_range_pushes_empty
    [Value.selfRef, Value.vstr "hi", Value.vint 1] 99 1
    ⟨[Value.selfRef, Value.vstr "hi", Value.vint 1, Value.vint 99], 2⟩
    (Value.vstr "hi") 2 rfl rfl (Or.inr rfl) rfl (Or.inr ⟨"hi", rfl⟩) rfl
    (Or.inl (by decide))

/-! ## Claims C4, C5, C9 (compiler) -/

theorem invalidWords_nil (ws : List String) (h : ∀ w ∈ ws, w = "chicken") :
    invalidWords ws = [] := by
  have hf : ws.filter (fun w => !(w == "chicken" || w == " ")) = [] := by
    apply List.filter_eq_nil_iff.mpr
    intro w hw
    simp [h w hw]
  unfold invalidWords
  rw [hf]
  rfl

theorem compileLines_all_chicken (lines : List String) (k : Nat)
    (h : ∀ l ∈ lines, ∀ w ∈ pySplit l, w = "chicken") :
    compileLines k lines = .ok (lines.map lineToken) := by
  induction lines generalizing k with
  | nil => rfl
  | cons l rest ih =>
    have h1 : invalidWords (pySplit l) = [] :=
      invalidWords_nil _ (h l (List.mem_cons_self l rest))
    have h2 := ih (k + 1) (fun p hp w hw => h p (List.mem_cons_of_mem _ hp) w hw)
    simp [compileLines, h1, h2]

/-- Claim C4: on source whose lines hold only the keyword (or nothing),
compile yields exactly one token per line in source order; a line of
word count at most 9 becomes the opcode of that count, and the blank
line (count 0) becomes Opcode(0) = EXIT. -/
theorem compile_all_chicken (src line : String)
    (hall : ∀ l ∈ pySplitlines src, ∀ w ∈ pySplit l, w = "chicken")
    (h9 : (pySplit line).length ≤ 9) :
    compile src = .ok ((pySplitlines src).map lineToken) ∧
    lineToken line = Value.vop (OPCODE.ofNat (pySplit line).length) ∧
    lineToken "" = Value.vop .EXIT ∧
    OPCODE.ofNat 0 = OPCODE.EXIT := by
  refine ⟨compileLines_all_chicken _ 1 hall, ?_, rfl, rfl⟩
  simp only [lineToken]
  rw [if_neg (by omega)]

theorem compile_all_chicken_witness :
    compile "chicken chicken\n\nchicken" =
      .ok ((pySplitlines "chicken chicken\n\nchicken").map lineToken) ∧
    lineToken "chicken chicken" =
      Value.vop (OPCODE.ofNat (pySplit "chicken chicken").length) ∧
    lineToken "" = Value.vop .EXIT ∧
    OPCODE.ofNat 0 = OPCODE.EXIT :=
  compile_all_chicken "chicken chicken\n\nchicken" "chicken chicken"
    (by decide) (by decide)

/-- Claim C5: a keyword-only line of word count above 9 compiles to the
raw literal token of that count, and executing that token pushes the
count minus ten onto the stack. -/
theorem compile_literal_roundtrip (src line : String) (m : Machine)
    (hsrc : pySplitlines src = [line])
    (hchick : ∀ w ∈ pySplit line, w = "chicken")
    (h9 : 9 < (pySplit line).length) :
    compile src = .ok [Value.vint ((pySplit line).length : Int)] ∧
    Machine.dispatch m (Value.vint ((pySplit line).length : Int)) =
      .ok (m.push (Value.vint (((pySplit line).length : Int) - 10))) := by
  constructor
  · unfold compile
    rw [hsrc, compileLines_all_chicken [line] 1
      (fun l hl => by simp at hl; subst hl; exact hchick)]
    simp [lineToken, if_pos h9]
  · simp [Machine.dispatch, toNum]

theorem compile_literal_roundtrip_witness :
    compile "chicken chicken chicken chicken chicken chicken chicken chicken chicken chicken chicken chicken chicken" =
      .ok [Value.vint ((pySplit "chicken chicken chicken chicken chicken chicken chicken chicken chicken chicken chicken chicken chicken").length : Int)] ∧
    Machine.dispatch ⟨[], 0⟩
        (Value.vint ((pySplit "chicken chicken chicken chicken chicken chicken chicken chicken chicken chicken chicken chicken chicken").length : Int)) =
      .ok ((⟨[], 0⟩ : Machine).push
        (Value.vint (((pySplit "chicken chicken chicken chicken chicken chicken chicken chicken chicken chicken chicken chicken chicken").length : Int) - 10))) :=
  compile_literal_roundtrip
    "chicken chicken chicken chicken chicken chicken chicken chicken chicken chicken chicken chicken chicken"
    "chicken chicken chicken chicken chicken chicken chicken chicken chicken chicken chicken chicken chicken"
    ⟨[], 0⟩ (by decide) (by decide) (by decide)

theorem compileLines_first_bad (l : String) (post : List String)
    (pre : List String) (k : Nat)
    (hpre : ∀ p ∈ pre, ∀ w ∈ pySplit p, w = "chicken")
    (hbad : invalidWords (pySplit l) ≠ []) :
    compileLines k (pre ++ l :: post) =
      .error ⟨k + pre.length, invalidWords (pySplit l)⟩ := by
  induction pre generalizing k with
  | nil =>
    have hI : (invalidWords (pySplit l)).isEmpty = false := by
      cases hE : invalidWords (pySplit l) with
      | nil => exact absurd hE hbad
      | cons a as => rfl
    simp [compileLines, hI]
  | cons p pre2 ih =>
    have h1 : invalidWords (pySplit p) = [] :=
      invalidWords_nil _ (hpre p (List.mem_cons_self p pre2))
    have h2 := ih (k + 1) (fun q hq w hw => hpre q (List.mem_cons_of_mem _ hq) w hw)
    simp [compileLines, h1, h2]
    omega

/-- Claim C9: a source text whose first offending line (all lines before
it keyword-only) contains a word other than the keyword makes compile
fail with a ParseError carrying that line's 1-based number and its
distinct invalid words; no token sequence is produced. -/
theorem compile_invalid_word_error (src : String) (pre post : List String)
    (l : String)
    (hsplit : pySplitlines src = pre ++ l :: post)
    (hpre : ∀ p ∈ pre, ∀ w ∈ pySplit p, w = "chicken")
    (hbad : invalidWords (pySplit l) ≠ []) :
    compile src = .error ⟨pre.length + 1, invalidWords (pySplit l)⟩ := by
  unfold compile
  rw [hsplit, compileLines_first_bad l post pre 1 hpre hbad]
  rw [Nat.add_comm]

theorem compile_invalid_word_error_witness :
    compile "chicken\ncow chicken cow moo" =
      .error ⟨["chicken"].length + 1,
        invalidWords (pySplit "cow chicken cow moo")⟩ :=
  compile_invalid_word_error "chicken\ncow chicken cow moo"
    ["chicken"] [] "cow chicken cow moo" (by decide) (by decide) (by decide)

/-! ## Claim C6 -/

/-- Claim C6: ADD pops b then a and pushes the result of a + b: direct
(numeric or same-kind) addition when Python + accepts the operands, and
on a type mismatch the concatenation of their textual representations;
in particular 3 ADD the string x yields the string 3x while 3 ADD 4
yields 7. -/
theorem add_numeric_or_concat (pre : List Value) (a b : Value) (ip x y : Int)
    (s : String) :
    Machine.dispatch ⟨pre ++ [a, b], ip⟩ (Value.vop .ADD) =
      .ok ⟨pre ++ [addValue pre a b], ip⟩ ∧
    addValue pre (Value.vint x) (Value.vint y) = Value.vint (x + y) ∧
    addValue pre (Value.vint x) (Value.vstr s) = Value.vstr (toString x ++ s) ∧
    addValue pre (Value.vint 3) (Value.vstr "x") = Value.vstr "3x" ∧
    addValue pre (Value.vint 3) (Value.vint 4) = Value.vint 7 := by
  refine ⟨?_, rfl, rfl, rfl, rfl⟩
  simp [Machine.dispatch, pop_concat2, pop_concat, Machine.push]

/-! ## Claim C7 -/

/-- Claim C7: JMP pops the offset then the condition; a truthy condition
(non-zero number, non-empty string, boolean true) leaves the instruction
pointer at its post-fetch position plus the offset, a falsy condition
leaves it unchanged at the post-fetch position. -/
theorem jmp_relative_truthy (pre : List Value) (c : Value) (k ip n : Int)
    (s : String) (b : Bool) :
    Machine.dispatch ⟨pre ++ [c, Value.vint k], ip⟩ (Value.vop .JMP) =
      .ok ⟨pre, if pyTruthy pre c then ip + k else ip⟩ ∧
    pyTruthy pre (Value.vint n) = (n != 0) ∧
    pyTruthy pre (Value.vstr s) = !s.isEmpty ∧
    pyTruthy pre (Value.vbool b) = b := by
  refine ⟨?_, rfl, rfl, rfl⟩
  by_cases h : pyTruthy pre c
  · simp [Machine.dispatch, pop_concat2, pop_concat, h, toNum]
  · simp [Machine.dispatch, pop_concat2, pop_concat, h]

/-! ## Claim C8 -/

theorem sub_mul_coerce_isErr (pre : List Value) (a b : Value) (s : String)
    (ip : Int) (opv : OPCODE)
    (hop : opv = OPCODE.SUB ∨ opv = OPCODE.MUL)
    (hbad : (a = Value.vstr s ∧ pyStrToInt s = none) ∨
            (b = Value.vstr s ∧ pyStrToInt s = none)) :
    (Machine.dispatch ⟨pre ++ [a, b], ip⟩ (Value.vop opv)).isErr = true := by
  rcases hop with h | h <;> subst h
  · rcases hbad with ⟨hv, hs⟩ | ⟨hv, hs⟩ <;> subst hv
    · simp [Machine.dispatch, pop_concat2, pop_concat, pyIntCoerce, hs,
        StepResult.isErr]
    · simp only [Machine.dispatch, pop_concat2, pop_concat]
      cases hca : pyIntCoerce a <;>
        simp [hca, pyIntCoerce, hs, StepResult.isErr]
  · rcases hbad with ⟨hv, hs⟩ | ⟨hv, hs⟩ <;> subst hv
    · simp only [Machine.dispatch, pop_concat2, pop_concat]
      cases hcb : pyIntCoerce b <;>
        simp [hcb, pyIntCoerce, hs, StepResult.isErr]
    · simp [Machine.dispatch, pop_concat2, pop_concat, pyIntCoerce, hs,
        StepResult.isErr]

/-- Claim C8: a SUB or MUL whose popped operands include a non-numeric
string makes the int() coercion fail, and the failure escapes dispatch
and run as a fatal machine fault — execution does not continue and no
zero-fallback is applied. -/
theorem sub_mul_bad_string_fatal (pre : List Value) (a b : Value) (s : String)
    (fuel : Nat) (m : Machine) (opv : OPCODE)
    (hop : opv = OPCODE.SUB ∨ opv = OPCODE.MUL)
    (hm : m.stack = pre ++ [a, b])
    (hfetch : pyIdx m.stack m.instruction_pointer = some (Value.vop opv))
    (hbad : (a = Value.vstr s ∧ pyStrToInt s = none) ∨
            (b = Value.vstr s ∧ pyStrToInt s = none)) :
    (Machine.dispatch ⟨m.stack, m.instruction_pointer + 1⟩
        (Value.vop opv)).isErr = true ∧
    (Machine.run (fuel + 1) m).isErr = true := by
  obtain ⟨stack, ip⟩ := m
  simp only at hm hfetch
  subst hm
  have hdisp := sub_mul_coerce_isErr pre a b s (ip + 1) opv hop hbad
  refine ⟨hdisp, ?_⟩
  have hle := pyIdx_le _ _ _ hfetch
  rcases hop with h | h <;> subst h <;>
  · simp only [Machine.run, if_pos hle, hfetch]
    cases hd : Machine.dispatch ⟨pre ++ [a, b], ip + 1⟩ (Value.vop _) with
    | ok m2 => rw [hd] at hdisp; exact absurd hdisp (by simp [StepResult.isErr])
    | err e m2 => simp [RunResult.isErr]

theorem sub_mul_bad_string_fatal_witness :
    (Machine.dispatch ⟨[Value.selfRef, Value.vstr "", Value.vop .SUB,
        Value.vstr "q", Value.vint 5], 3⟩ (Value.vop OPCODE.SUB)).isErr = true ∧
    (Machine.run 1 ⟨[Value.selfRef, Value.vstr "", Value.vop .SUB,
        Value.vstr "q", Value.vint 5], 2⟩).isErr = true :=
  sub_mul_bad_string_fatal [Value.selfRef, Value.vstr "", Value.vop .SUB]
    (Value.vstr "q") (Value.vint 5) "q" 0
    ⟨[Value.selfRef, Value.vstr "", Value.vop .SUB, Value.vstr "q",
      Value.vint 5], 2⟩ OPCODE.SUB (Or.inl rfl) rfl rfl (Or.inl ⟨rfl, rfl⟩)

/-! ## Claim C10 -/

/-- Claim C10: a STORE whose popped address lies outside the current
stack's index range raises an uncaught IndexError (the stack is not
extended), and at the moment of the raise both the address and the value
have already been popped, so the stack differs from its pre-STORE state:
STORE is not atomic on failure. -/
theorem store_out_of_range_error (pre : List Value) (v : Value) (n : Int)
    (fuel : Nat) (m : Machine)
    (hm : m.stack = pre ++ [v, Value.vint n])
    (hfetch : pyIdx m.stack m.instruction_pointer = some (Value.vop .STORE))
    (hrange : (pre.length : Int) ≤ n ∨ n < -(pre.length : Int)) :
    Machine.run (fuel + 1) m =
      .err .indexError ⟨pre, m.instruction_pointer + 1⟩ ∧
    pre ≠ m.stack := by
  obtain ⟨stack, ip⟩ := m
  simp only at hm hfetch ⊢
  subst hm
  constructor
  · have hle := pyIdx_le _ _ _ hfetch
    have hset := pySet_none_of_out pre n v hrange
    simp only [Machine.run, if_pos hle, hfetch]
    simp [Machine.dispatch, pop_concat2, pop_concat, toNum, hset]
  · intro he
    have hlen := congrArg List.length he
    simp [List.length_append] at hlen

theorem store_out_of_range_error_witness :
    Machine.run 1 ⟨[Value.selfRef, Value.vstr "", Value.vop .STORE,
        Value.vstr "x", Value.vint 99], 2⟩ =
      .err .indexError ⟨[Value.selfRef, Value.vstr "", Value.vop .STORE],
        (2 : Int) + 1⟩ ∧
    [Value.selfRef, Value.vstr "", Value.vop .STORE] ≠
      [Value.selfRef, Value.vstr "", Value.vop .STORE, Value.vstr "x",
        Value.vint 99] :=
  store_out_of_range_error [Value.selfRef, Value.vstr "", Value.vop .STORE]
    (Value.vstr "x") 99 0
    ⟨[Value.selfRef, Value.vstr "", Value.vop .STORE, Value.vstr "x",
      Value.vint 99], 2⟩ rfl rfl (Or.inl (by decide))
